import Mathlib

/-!
Verification development for the avito-parser acquisition engine.

Shallow embedding of the core of `internal/parser/avito.go` and its data
model (`internal/models/listing.go`, `internal/database` store semantics):
the field extractor (`parseListingElement`), the page validator
(`hasListings`), the listing fetcher (`ParseListings`), the pagination
controller loop (`ParseAllPages`) and the dedup/persist step
(`SaveListing`).  The external collaborators (browser renderer, Redis
store, net/url library) are modelled as explicit data: a rendered element
is a tree of selector-indexed children with text and href results, a page
is a selector-indexed query function, the store is an association list of
(key, value, ttl) entries, and the controller's environment maps
(page, attempt) pairs to check/fetch outcomes.
-/

namespace AvitoParser

/-- ASCII whitespace test modelling the characters Go's
`strings.TrimSpace` strips in the inputs relevant here (the further
Unicode space classes play no role in any claim). -/
def isSpaceChar (c : Char) : Bool :=
  c == ' ' || c == '\t' || c == '\n' || c == '\r'

/-- Model of Go `strings.TrimSpace`: drop whitespace from both ends. -/
def trimStr (s : String) : String :=
  String.mk (((s.toList.dropWhile isSpaceChar).reverse.dropWhile isSpaceChar).reverse)

/-- Character-list prefix test. -/
def leadsWithAux : List Char → List Char → Bool
  | [], _ => true
  | _ :: _, [] => false
  | a :: as, b :: bs => a == b && leadsWithAux as bs

/-- Model of Go `strings.HasPrefix p s`-style test: `strLeadsWith p s`
holds when `s` starts with the literal string `p`. -/
def strLeadsWith (p s : String) : Bool :=
  leadsWithAux p.toList s.toList

/-- Model of Go `strings.ReplaceAll s "/" "_"`: a single-character
replacement is a character map. -/
def replaceSlash (s : String) : String :=
  String.mk (s.toList.map (fun c => if c == '/' then '_' else c))

/-- UTF-8 size of one character, as Go counts string bytes. -/
def charBytes (c : Char) : Nat :=
  if c.toNat ≤ 127 then 1 else if c.toNat ≤ 2047 then 2
  else if c.toNat ≤ 65535 then 3 else 4

/-- Model of Go `len` on a string: its UTF-8 byte length. -/
def byteLen (s : String) : Nat :=
  s.toList.foldl (fun n c => n + charBytes c) 0

/-- The persisted data unit (`models.Listing`).  Timestamps are abstract
instants (`Nat`).  The `location`, `description` and `images` fields of
the Go struct are never set by the extractor and are marked `omitempty`;
they are dropped from the embedding because no claim touches them. -/
structure Listing where
  id : String
  title : String
  price : String
  url : String
  createdAt : Nat
  updatedAt : Nat
  deriving DecidableEq

/-- Model of `Listing.ToJSON` (the external `encoding/json` marshal of the
record); the exact rendering is irrelevant to every claim, only that a
serialized value is what gets written. -/
def Listing.toJSON (l : Listing) : String :=
  "\x7b\"id\":\"" ++ l.id ++ "\",\"title\":\"" ++ l.title ++ "\",\"price\":\""
    ++ l.price ++ "\",\"url\":\"" ++ l.url ++ "\",\"created_at\":"
    ++ Nat.repr l.createdAt ++ ",\"updated_at\":" ++ Nat.repr l.updatedAt ++ "\x7d"

/-- One hour in Go `time.Duration` units (nanoseconds). -/
def goHour : Nat := 3600 * 1000000000

/-- The Key-Value Store, modelled as the list of `Set` writes: each entry
is (key, value, ttl).  `Exists` is key membership, `Set` prepends. -/
abbrev Store : Type := List (String × String × Nat)

/-- Model of `RedisClient.Exists`: some entry carries the key. -/
def Store.existsKey (s : Store) (k : String) : Bool :=
  s.any (fun kv => kv.1 == k)

/-- Outcome of the dedup/persist step, mirroring the error cases of
`SaveListing` (nil listing, empty ID, duplicate) and success. -/
inductive SaveResult where
  | saved
  | alreadyExists
  | errNilListing
  | errEmptyID
  deriving DecidableEq

/-- Model of `AvitoParser.SaveListing` (avito.go:429-463): reject nil and
empty-ID listings, answer `alreadyExists` without writing when the key is
present, otherwise write the serialized listing once with a 24-hour TTL. -/
def SaveListing (store : Store) (l : Option Listing) : SaveResult × Store :=
  match l with
  | none => (SaveResult.errNilListing, store)
  | some l =>
    if l.id = "" then (SaveResult.errEmptyID, store)
    else if Store.existsKey store l.id then (SaveResult.alreadyExists, store)
    else (SaveResult.saved, (l.id, l.toJSON, 24 * goHour) :: store)

/-- A rendered DOM element as the extractor sees it: `sub` models
`element.Element(selector)` with the error and nil outcomes collapsed to
`none` (the code treats them identically), `text` models
`element.Text()`, `attrHref` models `element.Attribute("href")` (which
can error, return a nil pointer, or a string). -/
inductive Elem : Type where
  | mk (sub : String → Option Elem) (text : Except Unit String)
       (attrHref : Except Unit (Option String)) : Elem

/-- Child lookup of an element. -/
def Elem.sub : Elem → String → Option Elem
  | Elem.mk s _ _ => s

/-- Text extraction result of an element. -/
def Elem.text : Elem → Except Unit String
  | Elem.mk _ t _ => t

/-- Href attribute extraction result of an element. -/
def Elem.attrHref : Elem → Except Unit (Option String)
  | Elem.mk _ _ a => a

/-- The ordered title selector chain of `parseListingElement`
(avito.go:348-355). -/
def titleSelectors : List String :=
  ["[itemprop=\x27name\x27]", "[data-marker=\x27item-title\x27] a", "h3 a",
   ".item-title a", "[data-marker*=\x27title\x27] a", "a[title]"]

/-- The ordered price selector chain of `parseListingElement`
(avito.go:374-380). -/
def priceSelectors : List String :=
  ["[itemprop=\x27price\x27]", "[data-marker=\x27item-price\x27]", ".price",
   "[data-marker*=\x27price\x27]", ".item-price"]

/-- The listing-container selector chain shared by `hasListings`
(avito.go:127-131) and `ParseListings` (avito.go:298-302). -/
def pageSelectors : List String :=
  ["[data-marker=\x27item\x27]", "[data-marker*=\x27item\x27]", ".item, .listing-item"]

/-- The title loop of `parseListingElement` (avito.go:357-367).  The Go
`title` variable is the accumulator: a found element's text is assigned
to it even when blank (and `""` is assigned when `Text()` errors); only a
non-blank trimmed text is trimmed in place and breaks the loop. -/
def extractTitle (e : Elem) : List String → String → String
  | [], acc => acc
  | sel :: rest, acc =>
    match e.sub sel with
    | none => extractTitle e rest acc
    | some te =>
      match te.text with
      | Except.error _ => extractTitle e rest ""
      | Except.ok t => if trimStr t ≠ "" then trimStr t else extractTitle e rest t

/-- The price loop of `parseListingElement` (avito.go:382-392): first
selector with non-blank trimmed text wins, otherwise the literal default
(the loop's inner text variable is fresh, so no blank leaks out). -/
def extractPrice (e : Elem) : List String → String
  | [] => "Price not specified"
  | sel :: rest =>
    match e.sub sel with
    | none => extractPrice e rest
    | some pe =>
      match pe.text with
      | Except.error _ => extractPrice e rest
      | Except.ok t => if trimStr t ≠ "" then trimStr t else extractPrice e rest

/-- The URL step of `parseListingElement` (avito.go:394-405): the first
anchor's href, kept as-is when it starts with the literal "http",
otherwise prefixed with the site origin; empty in every failure case. -/
def extractURL (e : Elem) : String :=
  match e.sub "a[href]" with
  | none => ""
  | some le =>
    match le.attrHref with
    | Except.error _ => ""
    | Except.ok none => ""
    | Except.ok (some h) =>
      if h = "" then ""
      else if strLeadsWith "http" h then h
      else "https://www.avito.ru" ++ h

/-- Extraction failures of `parseListingElement`: nil element
(avito.go:343-345) and missing/empty title (avito.go:369-371). -/
inductive PErr where
  | nilElement
  | missingTitle
  deriving DecidableEq

/-- Model of `parseListingElement` (avito.go:342-426).  `now` is the
`time.Now()` instant of the call.  Note the source first assigns
`id = fmt.Sprintf("listing_%d", time.Now().UnixNano())` and then
unconditionally overwrites it in both branches of the `if` on the URL
(avito.go:408-414), so the time-based value is dead and does not appear
in the result. -/
def parseListingElement (oe : Option Elem) (now : Nat) : Except PErr Listing :=
  match oe with
  | none => Except.error PErr.nilElement
  | some e =>
    let title := extractTitle e titleSelectors ""
    if title = "" then Except.error PErr.missingTitle
    else
      let price := extractPrice e priceSelectors
      let itemURL := extractURL e
      let lid := if itemURL ≠ "" then "listing_" ++ replaceSlash itemURL
                 else "listing_title_" ++ Nat.repr (byteLen title)
      Except.ok { id := lid, title := title, price := price, url := itemURL,
                  createdAt := now, updatedAt := now }

/-- A loaded page: `query` models `page.Elements(selector)`, which can
error or yield a (possibly empty) list of possibly-nil elements. -/
structure Page where
  query : String → Except Unit (List (Option Elem))

/-- The selector probe loop shared by `hasListings` (avito.go:134-139)
and `ParseListings` (avito.go:305-311): both Go variables
(`listingElements`, `err`) are reassigned each iteration and the loop
breaks on the first error-free non-empty result, so the final value is
either that first non-empty result or the last candidate's result.
`last` carries the value from the previous iteration (initially the Go
zero values: nil slice, nil error, i.e. `.ok []`). -/
def findElements (p : Page) :
    List String → Except Unit (List (Option Elem)) → Except Unit (List (Option Elem))
  | [], last => last
  | sel :: rest, _ =>
    match p.query sel with
    | Except.ok es => if 0 < es.length then Except.ok es else findElements p rest (Except.ok es)
    | Except.error e => findElements p rest (Except.error e)

/-- A selector candidate yields when its query succeeds with one or more
elements (the break condition of the probe loop). -/
def yields (p : Page) (sel : String) : Bool :=
  match p.query sel with
  | Except.ok es => decide (0 < es.length)
  | Except.error _ => false

/-- The non-nil element count of `hasListings` (avito.go:147-152). -/
def countSome (es : List (Option Elem)) : Nat :=
  (es.filter Option.isSome).length

/-- Model of `AvitoParser.hasListings` (avito.go:106-156).  The input is
the renderer's outcome for the page: `.error` when page creation or
`WaitLoad` fails (both return a non-nil error in Go), `.ok` the loaded
page.  A selector-probe error is logged and reported as `(false, 0)` with
a nil error; otherwise the page is valid iff at least 3 non-nil elements
were found. -/
def hasListings (pl : Except Unit Page) : Except Unit (Bool × Nat) :=
  match pl with
  | Except.error e => Except.error e
  | Except.ok page =>
    match findElements page pageSelectors (Except.ok []) with
    | Except.error _ => Except.ok (false, 0)
    | Except.ok es => Except.ok (decide (3 ≤ countSome es), countSome es)

/-- The per-element loop of `ParseListings` (avito.go:320-335): skip nil
elements, skip elements whose extraction fails, keep the rest in order. -/
def collectListings (now : Nat) : List (Option Elem) → List Listing
  | [] => []
  | none :: rest => collectListings now rest
  | some e :: rest =>
    match parseListingElement (some e) now with
    | Except.error _ => collectListings now rest
    | Except.ok l => l :: collectListings now rest

/-- Model of `AvitoParser.ParseListings` (avito.go:277-339): renderer
failure propagates as an error; a selector-probe error or an empty
element list yields the empty list with no error; otherwise each element
goes through the extractor. -/
def ParseListings (pl : Except Unit Page) (now : Nat) : Except Unit (List Listing) :=
  match pl with
  | Except.error e => Except.error e
  | Except.ok page =>
    match findElements page pageSelectors (Except.ok []) with
    | Except.error _ => Except.ok []
    | Except.ok es =>
      if es.length = 0 then Except.ok []
      else Except.ok (collectListings now es)

/-- The pieces of a parsed URL as `generatePageURL` uses them: everything
before the query (scheme, host, path — opaque to the function) and the
query as key-value pairs (`url.Values` with single-valued keys flattened;
`Values.Set` semantics below replaces all pairs of a key). -/
structure URLParts where
  prePath : String
  query : List (String × String)
  deriving DecidableEq

/-- Model of `url.Values.Set k v`: drop every pair for `k`, add `(k, v)`. -/
def setQ (q : List (String × String)) (k v : String) : List (String × String) :=
  q.filter (fun kv => kv.1 ≠ k) ++ [(k, v)]

/-- Byte-wise string order used by `url.Values.Encode` key sorting. -/
def listCharLe : List Char → List Char → Bool
  | [], _ => true
  | _ :: _, [] => false
  | a :: as, b :: bs => if a == b then listCharLe as bs else decide (a < b)

/-- Insertion of one pair into a key-sorted query list. -/
def insertSorted (x : String × String) : List (String × String) → List (String × String)
  | [] => [x]
  | y :: ys => if listCharLe x.1.toList y.1.toList then x :: y :: ys else y :: insertSorted x ys

/-- Key-sort of a query list (the ordering `Values.Encode` applies). -/
def sortQuery : List (String × String) → List (String × String)
  | [] => []
  | x :: xs => insertSorted x (sortQuery xs)

/-- Model of `url.Values.Encode` (key-sorted `k=v` pairs joined by `&`;
percent-escaping, a detail of the external library that no claim
touches, is omitted). -/
def encodeQuery (q : List (String × String)) : String :=
  String.intercalate "&" ((sortQuery q).map (fun kv => kv.1 ++ "=" ++ kv.2))

/-- Model of `parsedURL.String()` after `RawQuery` was set. -/
def renderURL (u : URLParts) : String :=
  if u.query.isEmpty then u.prePath else u.prePath ++ "?" ++ encodeQuery u.query

/-- The query amendment of `generatePageURL` (avito.go:97-100):
`query.Set("p", pageNum)` then `query.Set("localPriority", "0")`. -/
def amendQuery (q : List (String × String)) (pageNum : Nat) : List (String × String) :=
  setQ (setQ q "p" (Nat.repr pageNum)) "localPriority" "0"

/-- Model of `AvitoParser.generatePageURL` (avito.go:84-103).  The
external `url.Parse` of the configured base URL is supplied as
`parseBase` (`none` models a parse error, in which case the code logs and
returns the base URL unchanged).  Page 1 returns the base URL before any
parsing. -/
def generatePageURL (parseBase : Option URLParts) (baseURL : String) (pageNum : Nat) : String :=
  if pageNum = 1 then baseURL
  else
    match parseBase with
    | none => baseURL
    | some u => renderURL { u with query := amendQuery u.query pageNum }

/-- The world as `ParseAllPages` observes it: for page `n` and retry
attempt `a` (0-based), `check n a` is the outcome of `hasListings` on
page `n`'s URL and `fetch n a` the outcome of `ParseListings` there.
Listings come as possibly-nil pointers as in the Go slice. -/
structure Env where
  check : Nat → Nat → Except Unit (Bool × Nat)
  fetch : Nat → Nat → Except Unit (List (Option Listing))

/-- The retry loop of `ParseAllPages` (avito.go:176-183 and 201-208,
`maxRetries = 3`): the result of the first error-free attempt, else the
third attempt's error. -/
def retry3 {α : Type} (f : Nat → Except Unit α) : Except Unit α :=
  match f 0 with
  | Except.ok v => Except.ok v
  | Except.error _ =>
    match f 1 with
    | Except.ok v => Except.ok v
    | Except.error _ => f 2

/-- Controller state across loop iterations of `ParseAllPages`:
`page` is `currentPage`, `totalPages`/`totalNew` the cycle statistics,
and the two trace lists record what the log records — pages whose save
stage completed ("Found … saved … new listings") and pages whose validity
check exhausted its retries ("Failed to check page …"). -/
structure CState where
  page : Nat
  store : Store
  totalPages : Nat
  totalNew : Nat
  processed : List Nat
  failedChecks : List Nat
  deriving DecidableEq

/-- Why the pagination loop ended: the normal below-threshold stop
(avito.go:194-197), the break after a check failure once the page number
exceeds 10 (avito.go:185-192), or the 50-page limit (avito.go:244-248). -/
inductive EndReason where
  | noListings
  | checkCeiling
  | pageLimit
  deriving DecidableEq

/-- One loop iteration's effect: continue with a new state, or break. -/
inductive StepRes where
  | next (s : CState) : StepRes
  | stop (s : CState) (r : EndReason) : StepRes
  deriving DecidableEq

/-- Whether a step continues the loop. -/
def StepRes.isNext : StepRes → Bool
  | StepRes.next _ => true
  | StepRes.stop _ _ => false

/-- The state a step carries. -/
def StepRes.state : StepRes → CState
  | StepRes.next s => s
  | StepRes.stop s _ => s

/-- The end reason a step carries, if it stops the loop. -/
def StepRes.reason : StepRes → Option EndReason
  | StepRes.next _ => none
  | StepRes.stop _ r => some r

/-- The save loop of `ParseAllPages` (avito.go:217-231): nil listings are
skipped, each other listing is offered to `SaveListing`, and only a
`saved` outcome increments `newListingsCount` (an "already exists" error
is merely not logged). -/
def saveLoop : Store → List (Option Listing) → Nat × Store
  | s, [] => (0, s)
  | s, none :: rest => saveLoop s rest
  | s, some l :: rest =>
    let r := SaveListing s (some l)
    let res := saveLoop r.2 rest
    ((if r.1 = SaveResult.saved then 1 else 0) + res.1, res.2)

/-- One iteration of the `ParseAllPages` loop (avito.go:167-249) at state
`s`: retry the validity check; on exhaustion advance the page and break
once the advanced page number exceeds 10; on an invalid page break; else
retry the fetch; on exhaustion advance the page and continue; else save
the listings, update statistics, advance the page and break once the
advanced page number exceeds 50. -/
def cycleStep (env : Env) (s : CState) : StepRes :=
  match retry3 (env.check s.page) with
  | Except.error _ =>
    let s' := { s with page := s.page + 1, failedChecks := s.failedChecks ++ [s.page] }
    if 10 < s.page + 1 then StepRes.stop s' EndReason.checkCeiling else StepRes.next s'
  | Except.ok (valid, _count) =>
    if valid then
      match retry3 (env.fetch s.page) with
      | Except.error _ => StepRes.next { s with page := s.page + 1 }
      | Except.ok listings =>
        let res := saveLoop s.store listings
        let s' := { s with
          page := s.page + 1
          store := res.2
          totalPages := s.totalPages + 1
          totalNew := s.totalNew + res.1
          processed := s.processed ++ [s.page] }
        if 50 < s.page + 1 then StepRes.stop s' EndReason.pageLimit else StepRes.next s'
    else StepRes.stop s EndReason.noListings

/-- Model of `AvitoParser.ParseAllPages` (avito.go:159-253) as a fueled
loop (the source loop can genuinely run unboundedly when every page's
fetch exhausts its retries while checks stay valid, so termination cannot
be assumed): result state plus the end reason, `none` when the fuel ran
out before the loop broke. -/
def ParseAllPages (env : Env) : Nat → CState → CState × Option EndReason
  | 0, s => (s, none)
  | fuel + 1, s =>
    match cycleStep env s with
    | StepRes.next s' => ParseAllPages env fuel s'
    | StepRes.stop s' r => (s', some r)

/-- The controller's start state: `currentPage = 1`, zeroed statistics
(the store is the one shared resource; claims start it empty). -/
def initState : CState :=
  { page := 1, store := [], totalPages := 0, totalNew := 0, processed := [], failedChecks := [] }

/-- Error test on a model result. -/
def exceptIsErr {α : Type} : Except Unit α → Bool
  | Except.error _ => true
  | Except.ok _ => false

/-- Scheme test written from the spec wording, a second definition kept
deliberately distinct from the code's `strings.HasPrefix(url, "http")`
test: the spec calls an href relative when it "does not start with a
scheme", and a URI scheme is a letter followed by letters, digits, plus,
minus or dot, terminated by a colon. -/
def isSchemeTailChar (c : Char) : Bool :=
  c.isAlphanum || c == '+' || c == '-' || c == '.'

/-- Scanner for the colon that terminates a scheme. -/
def schemeColon : List Char → Bool
  | [] => false
  | c :: rest => if c == ':' then true else if isSchemeTailChar c then schemeColon rest else false

/-- Whether a string starts with a URI scheme (spec-side notion). -/
def specSchemeStart (s : String) : Bool :=
  match s.toList with
  | [] => false
  | c :: rest => c.isAlpha && schemeColon rest

instance {ε α : Type} [DecidableEq ε] [DecidableEq α] : DecidableEq (Except ε α) := fun a b =>
  match a, b with
  | Except.ok x, Except.ok y =>
    if h : x = y then Decidable.isTrue (congrArg Except.ok h)
    else Decidable.isFalse (fun hc => h (Except.ok.inj hc))
  | Except.error x, Except.error y =>
    if h : x = y then Decidable.isTrue (congrArg Except.error h)
    else Decidable.isFalse (fun hc => h (Except.error.inj hc))
  | Except.ok _, Except.error _ => Decidable.isFalse (fun hc => Except.noConfusion hc)
  | Except.error _, Except.ok _ => Decidable.isFalse (fun hc => Except.noConfusion hc)

/-- The state after the save stage of one successful page (the `let`
block of the fetch-success branch of `cycleStep`, named for proofs). -/
def saveState (s : CState) (ls : List (Option Listing)) : CState :=
  { s with
    page := s.page + 1
    store := (saveLoop s.store ls).2
    totalPages := s.totalPages + 1
    totalNew := s.totalNew + (saveLoop s.store ls).1
    processed := s.processed ++ [s.page] }

/-- The id of an extraction result (empty on failure); used to compare
ids across runs. -/
def exId : Except PErr Listing → String
  | Except.ok l => l.id
  | Except.error _ => ""

/-- A leaf element with a given text and no children or href. -/
def textLeaf (t : String) : Elem :=
  Elem.mk (fun _ => none) (Except.ok t) (Except.error ())

/-- An element whose every child lookup except the anchor query yields a
leaf with text `t`; it has no anchor, so its URL never resolves. -/
def titleOnlyElem (t : String) : Elem :=
  Elem.mk (fun s => if s = "a[href]" then none else some (textLeaf t))
    (Except.error ()) (Except.error ())

/-- A leaf element carrying only an href attribute. -/
def anchorInner (h : String) : Elem :=
  Elem.mk (fun _ => none) (Except.error ()) (Except.ok (some h))

/-- An element whose only child is an anchor with href `h`. -/
def anchorElem (h : String) : Elem :=
  Elem.mk (fun s => if s = "a[href]" then some (anchorInner h) else none)
    (Except.error ()) (Except.error ())

/-- An element whose first title selector finds a leaf with
whitespace-only text and whose other lookups all fail. -/
def eBlank : Elem :=
  Elem.mk (fun s => if s = "[itemprop=\x27name\x27]" then some (textLeaf " ") else none)
    (Except.error ()) (Except.error ())

/-- The listing `titleOnlyElem "ab"` extracts at instant 5. -/
def lAB : Listing :=
  { id := "listing_title_2", title := "ab", price := "ab", url := "", createdAt := 5, updatedAt := 5 }

/-- A concrete listing for the persist-step witness. -/
def lW : Listing :=
  { id := "listing_w", title := "t", price := "p", url := "w", createdAt := 0, updatedAt := 0 }

/-- A non-nil element leaf for page-validity witnesses. -/
def someElem : Elem := textLeaf "x"

/-- A page whose first selector finds three non-nil elements and a nil
one. -/
def p3 : Page := { query := fun _ => Except.ok [some someElem, some someElem, some someElem, none] }

/-- A page whose first selector finds two non-nil elements and a nil
one. -/
def p2 : Page := { query := fun _ => Except.ok [some someElem, none, some someElem] }

/-- A page with no listing elements under any selector. -/
def pEmpty : Page := { query := fun _ => Except.ok [] }

/-- A parsed base URL with one pre-existing query parameter. -/
def uW : URLParts := { prePath := "https://www.avito.ru/x", query := [("district", "16")] }

/-- An environment whose every validity check fails unresolved. -/
def envAllFail : Env :=
  { check := fun _ _ => Except.error (), fetch := fun _ _ => Except.ok [] }

/-- An environment where every check passes and every fetch succeeds with
no listings. -/
def envAllOk : Env :=
  { check := fun _ _ => Except.ok (true, 3), fetch := fun _ _ => Except.ok [] }

/-- An environment where every check passes and every fetch attempt
fails. -/
def envFetchFail : Env :=
  { check := fun _ _ => Except.ok (true, 3), fetch := fun _ _ => Except.error () }

/-- An environment where only page 10's validity check fails (all its
attempts), everything else succeeds. -/
def envFailAt10 : Env :=
  { check := fun n _ => if n = 10 then Except.error () else Except.ok (true, 3)
    fetch := fun _ _ => Except.ok [] }

/-- An environment where only page 11's validity check fails (all its
attempts), everything else succeeds. -/
def envFailAt11 : Env :=
  { check := fun n _ => if n = 11 then Except.error () else Except.ok (true, 3)
    fetch := fun _ _ => Except.ok [] }

/-- An environment where every check passes but page 50's fetch exhausts
its retries; every other fetch succeeds with no listings. -/
def envFetchFailAt50 : Env :=
  { check := fun _ _ => Except.ok (true, 3)
    fetch := fun n _ => if n = 50 then Except.error () else Except.ok [] }

/-- The controller state at page 10 with everything else initial. -/
def sPage10 : CState := { initState with page := 10 }

/-- C1: dedup/persist idempotence.  For a listing with a non-empty id not
yet in the store, the first `SaveListing` answers `saved` and performs
exactly one write — the serialized listing under its id with a 24-hour
TTL — and the second answers `alreadyExists` leaving the store unchanged;
more generally, whenever the id already exists no write is performed. -/
theorem SaveListing_idempotent (store : Store) (l : Listing)
    (hid : l.id ≠ "") (hnew : Store.existsKey store l.id = false) :
    SaveListing store (some l) = (SaveResult.saved, (l.id, l.toJSON, 24 * goHour) :: store)
    ∧ SaveListing ((l.id, l.toJSON, 24 * goHour) :: store) (some l) =
        (SaveResult.alreadyExists, (l.id, l.toJSON, 24 * goHour) :: store)
    ∧ ∀ s2 : Store, Store.existsKey s2 l.id = true →
        SaveListing s2 (some l) = (SaveResult.alreadyExists, s2) := by
  refine ⟨?_, ?_, ?_⟩
  · simp [SaveListing, hid, hnew]
  · simp [SaveListing, hid, Store.existsKey]
  · intro s2 h2
    simp [SaveListing, hid, h2]

/-- C1 witness: the two calls on a concrete fresh listing and the empty
store. -/
theorem SaveListing_idempotent_witness :
    SaveListing [] (some lW) = (SaveResult.saved, [(lW.id, lW.toJSON, 24 * goHour)])
    ∧ SaveListing [(lW.id, lW.toJSON, 24 * goHour)] (some lW) =
        (SaveResult.alreadyExists, [(lW.id, lW.toJSON, 24 * goHour)]) := by
  have h := SaveListing_idempotent [] lW (by decide) (by decide)
  exact ⟨h.1, h.2.1⟩

/-- C6: the code at the failing input.  On an element whose first title
selector finds an element with whitespace-only text (and no other
selector yields anything), `parseListingElement` does NOT fail with a
missing-title error: the blank untrimmed text leaks out of the selector
loop, passes the final empty-string guard, and a Listing with a
whitespace-only title is constructed — contradicting the claim (and the
stated intent of the guard, whose error reads "title not found or
empty" and whose loop treats blank text as unusable). -/
theorem blankTitle_code_bug :
    parseListingElement (some eBlank) 0 =
      Except.ok { id := "listing_title_1", title := " ", price := "Price not specified",
                  url := "", createdAt := 0, updatedAt := 0 }
    ∧ trimStr " " = "" := by decide

/-- C3 counterexample: with no resolvable URL the id is
`"listing_title_" ++ length` alone.  The same element extracted under two
different time instants (1 and 999) gets the identical id, and a
different element with a different same-length title gets that id too —
so the fallback id involves no monotonic/unique time-based seed and is no
uniqueness token, refuting the claim at these inputs. -/
theorem fallbackId_claim_false :
    exId (parseListingElement (some (titleOnlyElem "ab")) 1) = "listing_title_2"
    ∧ exId (parseListingElement (some (titleOnlyElem "ab")) 999) = "listing_title_2"
    ∧ exId (parseListingElement (some (titleOnlyElem "cd")) 7) = "listing_title_2" := by decide

/-- C3 amended: for every successfully extracted listing, a non-empty url
gives `id = "listing_" ++ url` with every slash replaced by an
underscore, and an empty url gives `id = "listing_title_" ++` the decimal
byte length of the title — the time-based seed the source first assigns
is overwritten in both branches and never contributes. -/
theorem fallbackId_amended (e : Elem) (now : Nat) (l : Listing)
    (h : parseListingElement (some e) now = Except.ok l) :
    (l.url ≠ "" → l.id = "listing_" ++ replaceSlash l.url)
    ∧ (l.url = "" → l.id = "listing_title_" ++ Nat.repr (byteLen l.title)) := by
  unfold parseListingElement at h
  by_cases ht : extractTitle e titleSelectors "" = ""
  · simp [ht] at h
  · simp only [ht, if_neg, ite_false, Except.ok.injEq] at h
    subst h
    by_cases hu : extractURL e = ""
    · exact ⟨fun hne => absurd hu hne, fun _ => by simp [hu]⟩
    · exact ⟨fun _ => by simp [hu], fun he => absurd he hu⟩

/-- C3 witness: the amended derivation at the concrete url-less element
with the two-byte title "ab". -/
theorem fallbackId_amended_witness :
    lAB.id = "listing_title_" ++ Nat.repr (byteLen lAB.title) :=
  (fallbackId_amended (titleOnlyElem "ab") 5 lAB (by decide)).2 (by decide)

/-- C8 counterexample: the href "httpx/item/1" carries no scheme, so the
claim calls it relative and demands the origin-prefixed absolute url, but
the code's test is the literal prefix "http": the extracted url is the
href unchanged, neither absolute nor origin-prefixed. -/
theorem urlResolution_claim_false :
    specSchemeStart "httpx/item/1" = false
    ∧ extractURL (anchorElem "httpx/item/1") = "httpx/item/1"
    ∧ extractURL (anchorElem "httpx/item/1") ≠ "https://www.avito.ru" ++ "httpx/item/1" := by
  decide

/-- C8 amended: a first anchor carrying a non-empty href that does not
start with the literal "http" resolves to the origin
"https://www.avito.ru" concatenated with the href (so site-relative
hrefs such as "/item/123" become absolute); hrefs starting with "http"
are kept as-is; with no anchor the url stays empty, and a url never makes
extraction fail — the only element-level extraction failure of a non-nil
element is the missing title. -/
theorem urlResolution_amended :
    (∀ (e le : Elem) (href : String), Elem.sub e "a[href]" = some le →
       Elem.attrHref le = Except.ok (some href) → href ≠ "" →
       strLeadsWith "http" href = false →
       extractURL e = "https://www.avito.ru" ++ href)
    ∧ (∀ e : Elem, Elem.sub e "a[href]" = none → extractURL e = "")
    ∧ (∀ (e : Elem) (now : Nat) (err : PErr),
         parseListingElement (some e) now = Except.error err → err = PErr.missingTitle) := by
  refine ⟨?_, ?_, ?_⟩
  · intro e le href h1 h2 h3 h4
    simp [extractURL, h1, h2, h3, h4]
  · intro e h
    simp [extractURL, h]
  · intro e now err h
    unfold parseListingElement at h
    by_cases ht : extractTitle e titleSelectors "" = ""
    · simp only [ht, if_pos, ite_true, Except.error.injEq] at h
      exact h.symm
    · simp [ht] at h

/-- C8 witness: the amended resolution at the concrete relative href
"/item/123". -/
theorem urlResolution_amended_witness :
    extractURL (anchorElem "/item/123") = "https://www.avito.ru" ++ "/item/123" :=
  urlResolution_amended.1 (anchorElem "/item/123") (anchorInner "/item/123") "/item/123"
    rfl rfl (by decide) (by decide)

/-- Unfolding of the probe loop on a candidate whose query succeeds. -/
theorem findElements_cons_ok (p : Page) (sel : String) (rest : List String)
    (last : Except Unit (List (Option Elem))) (es : List (Option Elem))
    (hq : p.query sel = Except.ok es) :
    findElements p (sel :: rest) last =
      if 0 < es.length then Except.ok es else findElements p rest (Except.ok es) := by
  show (match p.query sel with
        | Except.ok es => if 0 < es.length then Except.ok es else findElements p rest (Except.ok es)
        | Except.error e => findElements p rest (Except.error e)) =
      if 0 < es.length then Except.ok es else findElements p rest (Except.ok es)
  rw [hq]

/-- Unfolding of the probe loop on a candidate whose query errors. -/
theorem findElements_cons_err (p : Page) (sel : String) (rest : List String)
    (last : Except Unit (List (Option Elem)))
    (hq : p.query sel = Except.error ()) :
    findElements p (sel :: rest) last = findElements p rest (Except.error ()) := by
  show (match p.query sel with
        | Except.ok es => if 0 < es.length then Except.ok es else findElements p rest (Except.ok es)
        | Except.error e => findElements p rest (Except.error e)) =
      findElements p rest (Except.error ())
  rw [hq]

/-- A selector candidate that does not yield is skipped by the probe
loop, which then carries that candidate's raw result forward. -/
theorem findElements_skip (p : Page) (sel : String) (rest : List String)
    (last : Except Unit (List (Option Elem))) (h : yields p sel = false) :
    findElements p (sel :: rest) last = findElements p rest (p.query sel) := by
  cases hq : p.query sel with
  | ok es =>
    have hd : decide (0 < es.length) = false := by
      unfold yields at h
      rw [hq] at h
      exact h
    have hlen : ¬ 0 < es.length := by simpa using hd
    rw [findElements_cons_ok p sel rest last es hq, if_neg hlen]
  | error e =>
    cases e
    rw [findElements_cons_err p sel rest last hq]

/-- The probe loop returns the result of the first candidate that yields
one or more elements, whatever follows it. -/
theorem findElements_firstYield (p : Page) :
    ∀ (pre : List String) (sel : String) (rest : List String) (es : List (Option Elem))
      (last : Except Unit (List (Option Elem))),
      (∀ s ∈ pre, yields p s = false) → p.query sel = Except.ok es → 0 < es.length →
      findElements p (pre ++ sel :: rest) last = Except.ok es := by
  intro pre
  induction pre with
  | nil =>
    intro sel rest es last _ hq hn
    show findElements p (sel :: rest) last = Except.ok es
    rw [findElements_cons_ok p sel rest last es hq, if_pos hn]
  | cons a as ih =>
    intro sel rest es last hpre hq hn
    rw [List.cons_append, findElements_skip p a (as ++ sel :: rest) last (hpre a (by simp))]
    exact ih sel rest es (p.query a) (fun s hs => hpre s (by simp [hs])) hq hn

/-- C5: page-validity threshold.  When some selector candidate is the
first to yield elements, `hasListings` reports that candidate's non-nil
element count and validity exactly `count ≥ 3`; every successful
`hasListings` answer satisfies `valid ↔ count ≥ 3` (so 2 elements are
invalid and 3 valid), and the count ignores nil elements and counts each
non-nil one once. -/
theorem pageValidity_threshold (p : Page) (pre : List String) (sel : String)
    (rest : List String) (es : List (Option Elem))
    (hsel : pageSelectors = pre ++ sel :: rest)
    (hpre : ∀ s ∈ pre, yields p s = false)
    (hq : p.query sel = Except.ok es) (hn : 0 < es.length) :
    hasListings (Except.ok p) = Except.ok (decide (3 ≤ countSome es), countSome es)
    ∧ (∀ (pl : Except Unit Page) (b : Bool) (c : Nat),
         hasListings pl = Except.ok (b, c) → (b = true ↔ 3 ≤ c))
    ∧ (∀ es2, countSome (none :: es2) = countSome es2)
    ∧ (∀ (e : Elem) (es2 : List (Option Elem)), countSome (some e :: es2) = countSome es2 + 1) := by
  have hasListings_eq : ∀ page : Page, hasListings (Except.ok page) =
      (match findElements page pageSelectors (Except.ok []) with
       | Except.error _ => Except.ok (false, 0)
       | Except.ok es2 => Except.ok (decide (3 ≤ countSome es2), countSome es2)) :=
    fun _ => rfl
  refine ⟨?_, ?_, ?_, ?_⟩
  · have hfe : findElements p pageSelectors (Except.ok []) = Except.ok es := by
      rw [hsel]
      exact findElements_firstYield p pre sel rest es (Except.ok []) hpre hq hn
    rw [hasListings_eq p, hfe]
  · intro pl b c h
    cases pl with
    | error e =>
      cases e
      exact absurd h (by simp [hasListings])
    | ok page =>
      rw [hasListings_eq page] at h
      cases hf : findElements page pageSelectors (Except.ok []) with
      | error e =>
        rw [hf] at h
        injection h with h'
        injection h' with hb hc
        subst hb
        subst hc
        simp
      | ok es2 =>
        rw [hf] at h
        injection h with h'
        injection h' with hb hc
        subst hb
        subst hc
        simp
  · intro es2
    simp [countSome]
  · intro e es2
    simp [countSome]

/-- C5 witness: a page whose first candidate yields three non-nil
elements and a nil one is valid with count 3 (the nil one not counted); a
page yielding two non-nil elements and a nil one is invalid with count
2. -/
theorem pageValidity_threshold_witness :
    hasListings (Except.ok p3) = Except.ok (true, 3)
    ∧ hasListings (Except.ok p2) = Except.ok (false, 2) := by
  have h3 := (pageValidity_threshold p3 [] "[data-marker=\x27item\x27]"
    ["[data-marker*=\x27item\x27]", ".item, .listing-item"]
    [some someElem, some someElem, some someElem, none] rfl (by simp) rfl (by decide)).1
  have h2 := (pageValidity_threshold p2 [] "[data-marker=\x27item\x27]"
    ["[data-marker*=\x27item\x27]", ".item, .listing-item"]
    [some someElem, none, some someElem] rfl (by simp) rfl (by decide)).1
  rw [h3, h2]
  exact ⟨by decide, by decide⟩

/-- C9: last-page signal vs fetch failure.  When the selector probe finds
no listing elements at all — it ends in an error or an empty list —
`ParseListings` returns the empty sequence with no error; a
renderer-level failure (page creation or page load) propagates as an
error with no sequence. -/
theorem emptyPage_vs_fetchFailure (now : Nat) :
    (∀ page : Page, findElements page pageSelectors (Except.ok []) = Except.error () →
       ParseListings (Except.ok page) now = Except.ok [])
    ∧ (∀ page : Page, findElements page pageSelectors (Except.ok []) = Except.ok [] →
       ParseListings (Except.ok page) now = Except.ok [])
    ∧ ParseListings (Except.error ()) now = Except.error () := by
  have ParseListings_eq : ∀ page : Page, ParseListings (Except.ok page) now =
      (match findElements page pageSelectors (Except.ok []) with
       | Except.error _ => Except.ok []
       | Except.ok es => if es.length = 0 then Except.ok [] else Except.ok (collectListings now es)) :=
    fun _ => rfl
  refine ⟨?_, ?_, rfl⟩
  · intro page h
    rw [ParseListings_eq page, h]
  · intro page h
    rw [ParseListings_eq page, h]
    simp

/-- C9 witness: the empty page gives an empty result with no failure; the
renderer failure propagates. -/
theorem emptyPage_vs_fetchFailure_witness :
    ParseListings (Except.ok pEmpty) 0 = Except.ok []
    ∧ ParseListings (Except.error ()) 0 = Except.error () :=
  ⟨(emptyPage_vs_fetchFailure 0).2.1 pEmpty rfl, (emptyPage_vs_fetchFailure 0).2.2⟩

/-- Membership in a query list after a `Values.Set`. -/
theorem mem_setQ (q : List (String × String)) (k v a b : String) :
    (a, b) ∈ setQ q k v ↔ ((a, b) ∈ q ∧ a ≠ k) ∨ (a = k ∧ b = v) := by
  simp [setQ, List.mem_filter]

/-- C10: page-URL generation.  Page 1 returns the base URL unchanged
before any parsing; an unparseable base URL is returned unchanged for
every page; for any page other than 1 a parsed base produces the
rendering of the same parts with the amended query, and the amended query
contains `p = n` and `localPriority = 0` while every other key's pairs
are exactly those of the original query. -/
theorem generatePageURL_spec :
    (∀ (pb : Option URLParts) (base : String), generatePageURL pb base 1 = base)
    ∧ (∀ (base : String) (n : Nat), generatePageURL none base n = base)
    ∧ (∀ (base : String) (n : Nat) (u : URLParts), 2 ≤ n →
         generatePageURL (some u) base n = renderURL { u with query := amendQuery u.query n })
    ∧ (∀ (q : List (String × String)) (n : Nat), ("p", Nat.repr n) ∈ amendQuery q n)
    ∧ (∀ (q : List (String × String)) (n : Nat), ("localPriority", "0") ∈ amendQuery q n)
    ∧ (∀ (q : List (String × String)) (n : Nat) (k v : String),
         k ≠ "p" → k ≠ "localPriority" →
         ((k, v) ∈ amendQuery q n ↔ (k, v) ∈ q)) := by
  refine ⟨?_, ?_, ?_, ?_, ?_, ?_⟩
  · intro pb base
    simp [generatePageURL]
  · intro base n
    by_cases h : n = 1 <;> simp [generatePageURL, h]
  · intro base n u hn
    have h1 : n ≠ 1 := by omega
    simp [generatePageURL, h1]
  · intro q n
    unfold amendQuery
    rw [mem_setQ]
    exact Or.inl ⟨by rw [mem_setQ]; exact Or.inr ⟨rfl, rfl⟩, by decide⟩
  · intro q n
    unfold amendQuery
    rw [mem_setQ]
    exact Or.inr ⟨rfl, rfl⟩
  · intro q n k v h1 h2
    unfold amendQuery
    rw [mem_setQ, mem_setQ]
    simp [h1, h2]

/-- C10 witness: page 2 of a concrete parsed base URL, and its amended
query containing the page parameter. -/
theorem generatePageURL_spec_witness :
    generatePageURL (some uW) "base" 2 = renderURL { uW with query := amendQuery uW.query 2 }
    ∧ ("p", Nat.repr 2) ∈ amendQuery uW.query 2 :=
  ⟨generatePageURL_spec.2.2.1 "base" 2 uW (by decide),
   generatePageURL_spec.2.2.2.1 uW.query 2⟩

/-- Unfolding of one controller iteration when the validity check
exhausts its retries. -/
theorem cycleStep_check_err (env : Env) (s : CState)
    (h : retry3 (env.check s.page) = Except.error ()) :
    cycleStep env s =
      (if 10 < s.page + 1
       then StepRes.stop { s with page := s.page + 1, failedChecks := s.failedChecks ++ [s.page] }
              EndReason.checkCeiling
       else StepRes.next { s with page := s.page + 1, failedChecks := s.failedChecks ++ [s.page] }) := by
  unfold cycleStep
  rw [h]

/-- Unfolding of one controller iteration when the check reports an
invalid page. -/
theorem cycleStep_invalid (env : Env) (s : CState) (c : Nat)
    (h : retry3 (env.check s.page) = Except.ok (false, c)) :
    cycleStep env s = StepRes.stop s EndReason.noListings := by
  unfold cycleStep
  rw [h]
  exact rfl

/-- Unfolding of one controller iteration when the check passes but the
fetch exhausts its retries. -/
theorem cycleStep_fetch_err (env : Env) (s : CState) (c : Nat)
    (h1 : retry3 (env.check s.page) = Except.ok (true, c))
    (h2 : retry3 (env.fetch s.page) = Except.error ()) :
    cycleStep env s = StepRes.next { s with page := s.page + 1 } := by
  unfold cycleStep
  rw [h1, h2]
  exact rfl

/-- Unfolding of one controller iteration when check and fetch both
succeed. -/
theorem cycleStep_fetch_ok (env : Env) (s : CState) (c : Nat) (ls : List (Option Listing))
    (h1 : retry3 (env.check s.page) = Except.ok (true, c))
    (h2 : retry3 (env.fetch s.page) = Except.ok ls) :
    cycleStep env s =
      (if 50 < s.page + 1
       then StepRes.stop (saveState s ls) EndReason.pageLimit
       else StepRes.next (saveState s ls)) := by
  unfold cycleStep
  rw [h1, h2]
  exact rfl

/-- Unfolding of the fueled loop on a continuing step. -/
theorem ParseAllPages_next (env : Env) (fuel : Nat) (s s' : CState)
    (h : cycleStep env s = StepRes.next s') :
    ParseAllPages env (fuel + 1) s = ParseAllPages env fuel s' := by
  show (match cycleStep env s with
        | StepRes.next t => ParseAllPages env fuel t
        | StepRes.stop t r => (t, some r)) = ParseAllPages env fuel s'
  rw [h]

/-- Unfolding of the fueled loop on a breaking step. -/
theorem ParseAllPages_stop (env : Env) (fuel : Nat) (s s' : CState) (r : EndReason)
    (h : cycleStep env s = StepRes.stop s' r) :
    ParseAllPages env (fuel + 1) s = (s', some r) := by
  show (match cycleStep env s with
        | StepRes.next t => ParseAllPages env fuel t
        | StepRes.stop t r => (t, some r)) = (s', some r)
  rw [h]

/-- C2 counterexample: pages 1-9 all pass their checks and are processed,
then a single unresolved page-check failure on page 10 ends the sweep via
the check-failure break (the recorded unresolved-failure trace holds one
page, not 10 consecutive ones). -/
theorem secondaryCeiling_claim_false :
    (ParseAllPages envFailAt10 20 initState).2 = some EndReason.checkCeiling
    ∧ (ParseAllPages envFailAt10 20 initState).1.failedChecks = [10]
    ∧ (ParseAllPages envFailAt10 20 initState).1.processed = [1, 2, 3, 4, 5, 6, 7, 8, 9] := by
  decide

/-- C2 amended: the controller stops the sweep via the secondary
(check-failure) path exactly when one page-check exhausts its retries
while the advanced page number exceeds 10 — no consecutiveness and no
count of 10 failures is required — and such a failure always advances the
page number and records the failed page. -/
theorem secondaryCeiling_amended (env : Env) (s : CState) :
    ((cycleStep env s).reason = some EndReason.checkCeiling ↔
       (exceptIsErr (retry3 (env.check s.page)) = true ∧ 10 < s.page + 1))
    ∧ (exceptIsErr (retry3 (env.check s.page)) = true →
         (cycleStep env s).state.page = s.page + 1
         ∧ (cycleStep env s).state.failedChecks = s.failedChecks ++ [s.page]) := by
  cases hr : retry3 (env.check s.page) with
  | error e =>
    cases e
    rw [cycleStep_check_err env s hr]
    by_cases h10 : 10 < s.page + 1
    · simp [h10, StepRes.reason, StepRes.state, exceptIsErr, hr]
    · simp [h10, StepRes.reason, StepRes.state, exceptIsErr, hr]
  | ok vc =>
    obtain ⟨v, c⟩ := vc
    cases v with
    | false =>
      rw [cycleStep_invalid env s c hr]
      simp [StepRes.reason, exceptIsErr, hr]
    | true =>
      cases hf : retry3 (env.fetch s.page) with
      | error e2 =>
        cases e2
        rw [cycleStep_fetch_err env s c hr hf]
        simp [StepRes.reason, exceptIsErr, hr]
      | ok ls =>
        rw [cycleStep_fetch_ok env s c ls hr hf]
        by_cases h50 : 50 < s.page + 1
        · simp [h50, StepRes.reason, exceptIsErr, hr]
        · simp [h50, StepRes.reason, exceptIsErr, hr]

/-- C2 witness: the amended rule at page 10 with every check attempt
failing — the sweep stops via the secondary path with the page
advanced. -/
theorem secondaryCeiling_amended_witness :
    (cycleStep envAllFail sPage10).reason = some EndReason.checkCeiling
    ∧ (cycleStep envAllFail sPage10).state.page = 11 := by
  have h := secondaryCeiling_amended envAllFail sPage10
  exact ⟨h.1.mpr ⟨rfl, by decide⟩, ((h.2 rfl).1.trans (by decide))⟩

/-- C7 counterexample: pages 1-10 all pass and are processed, then the
page-validity check on page 11 fails all 3 attempts — and instead of the
cycle continuing with page 12, the whole sweep ends (check-failure
break). -/
theorem retryExhaustion_claim_false :
    (ParseAllPages envFailAt11 30 initState).2 = some EndReason.checkCeiling
    ∧ (ParseAllPages envFailAt11 30 initState).1.failedChecks = [11]
    ∧ (ParseAllPages envFailAt11 30 initState).1.processed = [1, 2, 3, 4, 5, 6, 7, 8, 9, 10] := by
  decide

/-- C7 amended: the retry wrapper consults only attempts 0, 1 and 2 (so
both the validity check and the fetch are tried at most 3 times); a page
whose validity check exhausts its retries always advances the page
number, and the cycle continues exactly when the advanced page number is
at most 10; a page whose fetch exhausts its retries (after a passing
check) always advances the page number and continues. -/
theorem retryExhaustion_amended (env : Env) (s : CState) :
    (∀ (α : Type) (f g : Nat → Except Unit α),
       f 0 = g 0 → f 1 = g 1 → f 2 = g 2 → retry3 f = retry3 g)
    ∧ (exceptIsErr (retry3 (env.check s.page)) = true →
         (cycleStep env s).state.page = s.page + 1
         ∧ ((cycleStep env s).isNext = true ↔ s.page + 1 ≤ 10))
    ∧ (∀ c : Nat, retry3 (env.check s.page) = Except.ok (true, c) →
         exceptIsErr (retry3 (env.fetch s.page)) = true →
         cycleStep env s = StepRes.next { s with page := s.page + 1 }) := by
  refine ⟨?_, ?_, ?_⟩
  · intro α f g h0 h1 h2
    unfold retry3
    rw [h0, h1, h2]
  · intro he
    cases hr : retry3 (env.check s.page) with
    | ok v =>
      rw [hr] at he
      exact absurd he (by simp [exceptIsErr])
    | error e =>
      cases e
      rw [cycleStep_check_err env s hr]
      by_cases h10 : 10 < s.page + 1
      · constructor
        · simp [h10, StepRes.state]
        · simp [h10, StepRes.isNext]
          omega
      · constructor
        · simp [h10, StepRes.state]
        · simp [h10, StepRes.isNext]
          omega
  · intro c hr hf
    cases hfe : retry3 (env.fetch s.page) with
    | ok ls =>
      rw [hfe] at hf
      exact absurd hf (by simp [exceptIsErr])
    | error e2 =>
      cases e2
      exact cycleStep_fetch_err env s c hr hfe

/-- C7 witness: the amended behavior at the initial state — fetch
exhaustion continues with page 2, and check exhaustion advances to page
2. -/
theorem retryExhaustion_amended_witness :
    cycleStep envFetchFail initState = StepRes.next { initState with page := 2 }
    ∧ (cycleStep envAllFail initState).state.page = 2 := by
  exact ⟨(retryExhaustion_amended envFetchFail initState).2.2 3 rfl rfl,
         ((retryExhaustion_amended envAllFail initState).2.1 rfl).1⟩

/-- C4 counterexample: with every page's validity check reporting 3
elements, a fetch-retry exhaustion on page 50 sidesteps the 50-page
break, and page 51 is processed (checked, fetched and saved). -/
theorem pageLimit_claim_false :
    (∀ n a : Nat, envFetchFailAt50.check n a = Except.ok (true, 3))
    ∧ 51 ∈ (ParseAllPages envFetchFailAt50 60 initState).1.processed :=
  ⟨fun _ _ => rfl, by decide⟩

/-- When every check passes and every fetch from page 50 on succeeds
within its retries, the loop runs page by page up to exactly page 50 and
breaks at the 50-page limit; every page processed on the way is at most
50 and page 50 itself is processed. -/
theorem runToPageLimit (env : Env)
    (hvalid : ∀ n, ∃ c, retry3 (env.check n) = Except.ok (true, c))
    (hfetch : ∀ n, 50 ≤ n → ∃ ls, retry3 (env.fetch n) = Except.ok ls) :
    ∀ (fuel : Nat) (s : CState), s.page ≤ 50 → 51 - s.page ≤ fuel →
      (ParseAllPages env fuel s).2 = some EndReason.pageLimit
      ∧ (ParseAllPages env fuel s).1.page = 51
      ∧ (∀ m ∈ (ParseAllPages env fuel s).1.processed, m ∈ s.processed ∨ m ≤ 50)
      ∧ 50 ∈ (ParseAllPages env fuel s).1.processed := by
  intro fuel
  induction fuel with
  | zero =>
    intro s h50 hf
    omega
  | succ f ih =>
    intro s h50 hf
    obtain ⟨c, hc⟩ := hvalid s.page
    cases hfe : retry3 (env.fetch s.page) with
    | error e =>
      cases e
      have hlt : s.page < 50 := by
        rcases Nat.lt_or_ge s.page 50 with h | h
        · exact h
        · obtain ⟨ls, hls⟩ := hfetch s.page h
          rw [hfe] at hls
          exact absurd hls (by simp)
      have hstep : cycleStep env s = StepRes.next { s with page := s.page + 1 } :=
        cycleStep_fetch_err env s c hc hfe
      rw [ParseAllPages_next env f s _ hstep]
      exact ih { s with page := s.page + 1 } (by simp; omega) (by simp; omega)
    | ok ls =>
      have hstep := cycleStep_fetch_ok env s c ls hc hfe
      by_cases h50' : 50 < s.page + 1
      · have hp : s.page = 50 := by omega
        rw [if_pos h50'] at hstep
        rw [ParseAllPages_stop env f s _ _ hstep]
        refine ⟨rfl, by simp [saveState, hp], ?_, ?_⟩
        · intro m hm
          simp [saveState] at hm
          rcases hm with h | h
          · exact Or.inl h
          · exact Or.inr (by omega)
        · simp [saveState, hp]
      · rw [if_neg h50'] at hstep
        rw [ParseAllPages_next env f s _ hstep]
        have hrec := ih (saveState s ls) (by simp [saveState]; omega) (by simp [saveState]; omega)
        refine ⟨hrec.1, hrec.2.1, ?_, hrec.2.2.2⟩
        intro m hm
        rcases hrec.2.2.1 m hm with hin | hle
        · simp [saveState] at hin
          rcases hin with h | h
          · exact Or.inl h
          · exact Or.inr (by omega)
        · exact Or.inr hle

/-- C4 amended: provided the fetch step succeeds within its 3 retries on
every page from 50 on (a fetch-retry exhaustion there sidesteps the
break), a cycle in which every page's validity check reports a valid
page stops at the 50-page limit with page 50 the last page processed and
no page past 50 processed. -/
theorem pageLimit_amended (env : Env)
    (hvalid : ∀ n, ∃ c, retry3 (env.check n) = Except.ok (true, c))
    (hfetch : ∀ n, 50 ≤ n → ∃ ls, retry3 (env.fetch n) = Except.ok ls)
    (fuel : Nat) (hfuel : 50 ≤ fuel) :
    (ParseAllPages env fuel initState).2 = some EndReason.pageLimit
    ∧ (ParseAllPages env fuel initState).1.page = 51
    ∧ (∀ m ∈ (ParseAllPages env fuel initState).1.processed, m ≤ 50)
    ∧ 50 ∈ (ParseAllPages env fuel initState).1.processed := by
  have h := runToPageLimit env hvalid hfetch fuel initState (by decide)
    (by simp [initState]; omega)
  refine ⟨h.1, h.2.1, ?_, h.2.2.2⟩
  intro m hm
  rcases h.2.2.1 m hm with hin | hle
  · exact absurd hin (by simp [initState])
  · exact hle

/-- C4 witness: the amended ceiling at a concrete all-valid environment
with exactly 50 units of fuel. -/
theorem pageLimit_amended_witness :
    (ParseAllPages envAllOk 50 initState).2 = some EndReason.pageLimit
    ∧ 50 ∈ (ParseAllPages envAllOk 50 initState).1.processed := by
  have h := pageLimit_amended envAllOk (fun _ => ⟨3, rfl⟩) (fun _ _ => ⟨[], rfl⟩) 50 (by decide)
  exact ⟨h.1, h.2.2.2⟩

end AvitoParser
